import Mathlib

/-!
Verification of the cosmic_ray_detector program against its natural-language
specification.  The Rust sources are shallowly embedded: `u8` buffer contents
and `u64`/`usize` quantities are modelled as `Nat` (with explicit `% 2 ^ 64`
where the Rust code can wrap), strings as `String`, fallible parsing as
`Except`/`Option`.
-/

/-! ## Detector (src/detector.rs)

The Rust struct owns a `Vec<u8>` accessed only through volatile reads and
writes; volatility is a compiler-level concern with no functional content, so
the embedding keeps just the data.  `find_index_of_changed_element` uses
rayon's `position_any`, which may return any index holding a non-default
byte; it is modelled deterministically as the first such index (all claims
about it only use existence and bounds, never which index). -/

structure Detector where
  default : Nat
  capacity : Nat
  detector_mass : List Nat
deriving DecidableEq, Repr

def Detector.new (default : Nat) (initial_capacity : Nat) : Detector :=
  ⟨default, initial_capacity, List.replicate initial_capacity default⟩

/-- Scan helper: index of the first element differing from `d`, starting the
index count at `i` (models rayon `position_any`, see above). -/
def findChangedAux (d : Nat) : Nat → List Nat → Option Nat
  | _, [] => none
  | i, r :: rest => if r ≠ d then some i else findChangedAux d (i + 1) rest

def Detector.find_index_of_changed_element (b : Detector) : Option Nat :=
  findChangedAux b.default 0 b.detector_mass

/-- `is_intact` in the source is literally `!find_index_of_changed_element().is_some()`. -/
def Detector.is_intact (b : Detector) : Bool :=
  !b.find_index_of_changed_element.isSome

/-- `write` sets every element of the detector memory to `value`. -/
def Detector.write (b : Detector) (value : Nat) : Detector :=
  ⟨b.default, b.capacity, b.detector_mass.map (fun _ => value)⟩

def Detector.reset (b : Detector) : Detector :=
  b.write b.default

def Detector.get (b : Detector) (index : Nat) : Option Nat :=
  if h : index < b.detector_mass.length then
    some (b.detector_mass.get ⟨index, h⟩)
  else
    none

lemma findChangedAux_eq_none_iff (d : Nat) :
    ∀ (l : List Nat) (i : Nat), findChangedAux d i l = none ↔ ∀ x ∈ l, x = d := by
  intro l
  induction l with
  | nil => intro i; simp [findChangedAux]
  | cons r rest ih =>
    intro i
    by_cases hr : r = d
    · simp [findChangedAux, hr, ih]
    · simp [findChangedAux, hr]

lemma is_intact_iff_all (b : Detector) :
    b.is_intact = true ↔ ∀ x ∈ b.detector_mass, x = b.default := by
  unfold Detector.is_intact Detector.find_index_of_changed_element
  rw [Bool.not_eq_true']
  constructor
  · intro h
    refine (findChangedAux_eq_none_iff b.default b.detector_mass 0).mp ?_
    cases hfind : findChangedAux b.default 0 b.detector_mass with
    | none => rfl
    | some i => rw [hfind] at h; simp at h
  · intro h
    rw [(findChangedAux_eq_none_iff b.default b.detector_mass 0).mpr h]
    rfl

/-- C6: `is_intact()` returns true iff every byte of the buffer equals
`default_value`, and false otherwise. -/
theorem C6_is_intact_iff_all_default (b : Detector) :
    b.is_intact = true ↔ ∀ x ∈ b.detector_mass, x = b.default :=
  is_intact_iff_all b

/-- Witness for C6 at a concrete buffer. -/
theorem C6_is_intact_iff_all_default_witness :
    (Detector.new 5 2).is_intact = true :=
  (C6_is_intact_iff_all_default (Detector.new 5 2)).mpr (by decide)

/-- C7: immediately after `new(d, C)` and immediately after `reset()` the
buffer is intact, and `reset()` twice in a row leaves it intact after each
call. -/
theorem C7_new_reset_intact :
    (∀ (d C : Nat), (Detector.new d C).is_intact = true)
    ∧ (∀ b : Detector, b.reset.is_intact = true)
    ∧ (∀ b : Detector, b.reset.is_intact = true ∧ b.reset.reset.is_intact = true) := by
  have hreset : ∀ b : Detector, b.reset.is_intact = true := by
    intro b
    rw [is_intact_iff_all]
    show ∀ x ∈ b.detector_mass.map (fun _ => b.default), x = b.default
    intro x hx
    rcases List.mem_map.mp hx with ⟨a, -, ha⟩
    exact ha.symm
  refine ⟨?_, hreset, fun b => ⟨hreset b, hreset b.reset⟩⟩
  intro d C
  rw [is_intact_iff_all]
  show ∀ x ∈ List.replicate C d, x = d
  intro x hx
  exact List.eq_of_mem_replicate hx

/-- C8: after `write(v)` with `v ≠ default` on a buffer of nonzero capacity,
`is_intact()` is false and `find_index_of_changed_element()` returns an index
strictly below the capacity on which `get` yields a value. -/
theorem C8_write_not_intact (b : Detector) (v : Nat)
    (hwf : b.detector_mass.length = b.capacity)
    (hcap : 0 < b.capacity)
    (hv : v ≠ b.default) :
    (b.write v).is_intact = false
    ∧ ∃ i, (b.write v).find_index_of_changed_element = some i
        ∧ i < (b.write v).capacity
        ∧ ((b.write v).get i).isSome = true := by
  obtain ⟨x, rest, hmass⟩ : ∃ x rest, b.detector_mass = x :: rest := by
    cases hm : b.detector_mass with
    | nil => rw [hm] at hwf; simp at hwf; omega
    | cons x rest => exact ⟨x, rest, rfl⟩
  have hfind : (b.write v).find_index_of_changed_element = some 0 := by
    show findChangedAux b.default 0 (b.detector_mass.map (fun _ => v)) = some 0
    rw [hmass]
    simp only [List.map_cons, findChangedAux]
    simp [hv]
  refine ⟨?_, 0, hfind, ?_, ?_⟩
  · simp [Detector.is_intact, hfind]
  · show 0 < b.capacity
    exact hcap
  · have hlen : 0 < (b.write v).detector_mass.length := by
      show 0 < (b.detector_mass.map (fun _ => v)).length
      rw [hmass]
      simp
    simp [Detector.get, hlen]

/-- Witness for C8 at a concrete buffer. -/
theorem C8_write_not_intact_witness :
    ((Detector.new 0 3).write 1).is_intact = false :=
  (C8_write_not_intact (Detector.new 0 3) 1 rfl (by decide) (by decide)).1

/-! ## Adaptive sizing (src/main.rs, lines 15-99)

Memory metrics come from `sysinfo` (`available_memory`, `used_swap`,
`total_swap`, all `u64`); a run of the program observes a stream of samples,
modelled as a function `Nat → Metrics` (sample 0 is taken before the loop,
sample `n ≥ 1` at the `refresh_specifics` call of loop iteration `n`).
`u64`/`usize` values are `Nat`; the one place the Rust release build can wrap
(`used_swap() - previous_swap_usage` on `u64`) is modelled with an explicit
wrapping subtraction; the `as i64` cast of `available_memory` is modelled
with an explicit two's-complement reinterpretation into `Int`, and the `i64`
subtraction of the floor test (`available_memory as i64 - FREE_MEM_THRESHOLD
as i64`, main.rs line 74) likewise wraps in a release build, modelled by
`wrapSubI64`.

The sizing loop's state is `size`, `total_size`, `increment` and the list of
probe detectors (`init_detectors`, most recent first, held only to keep their
allocations alive; modelled by their sizes).  `probes` counts the
`Detector::new` allocations performed for sizing, to observe whether any
sizing probe happened at all. -/

structure Metrics where
  available_memory : Nat
  used_swap : Nat
  total_swap : Nat
deriving DecidableEq, Repr

def SWAP_DELTA_THRESHOLD : Nat := 10000000

def FREE_MEM_THRESHOLD : Nat := 50000000

/-- Wrapping `u64` subtraction (Rust release semantics of `a - b`). -/
def wrapSub64 (a b : Nat) : Nat := (a + 2 ^ 64 - b % 2 ^ 64) % 2 ^ 64

/-- Reinterpretation of a `u64` value as `i64` (`as i64` in Rust). -/
def toI64 (x : Nat) : Int := if x % 2 ^ 64 < 2 ^ 63 then (x % 2 ^ 64 : Nat) else (x % 2 ^ 64 : Nat) - 2 ^ 64

/-- Wrapping `i64` subtraction (Rust release semantics of `a - b` on `i64`):
the true difference reduced into `[-2 ^ 63, 2 ^ 63)` two's-complement
style. -/
def wrapSubI64 (a b : Int) : Int := (a - b + 2 ^ 63) % 2 ^ 64 - 2 ^ 63

structure SizState where
  size : Nat
  total_size : Nat
  increment : Nat
  dets : List Nat
  probes : Nat
deriving DecidableEq, Repr

/-- One iteration of the sizing loop body (main.rs lines 51-96), given the
pre-loop swap baseline `prev` and the metrics sample `m` of this iteration.
Returns the state after the body together with `true` iff the body hit
`break`.  Rust `usize`/`u64` subtractions here never underflow on the states
the program reaches (`total_size` always contains the current `size` as its
most recent summand, and `size ≥ increment/2`), so plain truncated `Nat`
subtraction is a faithful model. -/
def sizingStep (prev : Nat) (m : Metrics) (s : SizState) : SizState × Bool :=
  let inc1 := s.increment / 2
  if 0 < m.total_swap then
    if SWAP_DELTA_THRESHOLD < wrapSub64 m.used_swap prev then
      (⟨s.size - inc1, (s.total_size - s.size) + (s.size - inc1), inc1,
        (s.size - inc1) :: s.dets.tail, s.probes + 1⟩, false)
    else if inc1 < FREE_MEM_THRESHOLD then
      (⟨s.size, s.total_size, inc1, s.dets, s.probes⟩, true)
    else
      (⟨s.size - inc1, s.total_size + (s.size - inc1), inc1,
        (s.size - inc1) :: s.dets, s.probes + 1⟩, false)
  else
    if wrapSubI64 (toI64 m.available_memory) (FREE_MEM_THRESHOLD : Int) < 0 then
      (⟨s.size - inc1, (s.total_size - s.size) + (s.size - inc1), inc1,
        (s.size - inc1) :: s.dets.tail, s.probes + 1⟩, false)
    else if inc1 < FREE_MEM_THRESHOLD then
      (⟨s.size, s.total_size, inc1, s.dets, s.probes⟩, true)
    else
      (⟨s.size - inc1, s.total_size + (s.size - inc1), inc1,
        (s.size - inc1) :: s.dets, s.probes + 1⟩, false)

/-- Run up to `fuel` iterations of the sizing loop, feeding metrics samples
`n, n+1, ...`; the Bool is `true` iff the loop hit `break` within `fuel`
iterations (the Rust loop has no other exit). -/
def sizingRun (M : Nat → Metrics) (prev : Nat) : Nat → Nat → SizState → SizState × Bool
  | 0, _, s => (s, false)
  | fuel + 1, n, s =>
    let r := sizingStep prev (M n) s
    if r.2 then r else sizingRun M prev fuel (n + 1) r.1

/-- State before the loop (main.rs lines 44-50): `size = total_size =
increment = available_memory / 2` and one probe detector of that size. -/
def initSizState (a : Nat) : SizState := ⟨a / 2, a / 2, a / 2, [a / 2], 1⟩

def adaptiveRun (M : Nat → Metrics) (fuel : Nat) : SizState × Bool :=
  sizingRun M (M 0).used_swap fuel 1 (initSizState (M 0).available_memory)

/-- The startup size computation of `main` (lines 21-99 and 118): the final
detector size and the number of sizing-probe allocations.  The whole sizing
block is inside `if verbose`, and within it the sizer runs only when
`size == 0`; otherwise `size` stays `memory_to_occupy`.  `none` models the
loop not having hit `break` within `fuel` iterations. -/
def startupResult (M : Nat → Metrics) (fuel : Nat) (memory_to_occupy : Nat)
    (verbose : Bool) : Option (Nat × Nat) :=
  if verbose = true ∧ memory_to_occupy = 0 then
    let r := adaptiveRun M fuel
    if r.2 then some (r.1.total_size, r.1.probes) else none
  else
    some (memory_to_occupy, 0)

/-- A metrics provider with no swap and a constant 200 MB of available
memory. -/
def metricsNoSwap200 : Nat → Metrics := fun _ => ⟨200000000, 0, 0⟩

/-- C1: the program's final detector size is claimed not to depend on
`verbose`.  It does: with `memory_to_occupy = 0` the adaptive sizer runs only
when `verbose` is true (the whole sizing block is inside `if verbose`,
main.rs lines 33-112), so the same configuration and metrics yield a 0-byte
detector with `verbose = false` and a 150 MB detector with `verbose = true`. -/
theorem C1_verbose_gates_sizing :
    startupResult metricsNoSwap200 10 0 false = some (0, 0)
    ∧ startupResult metricsNoSwap200 10 0 true = some (150000000, 2)
    ∧ (150000000 : Nat) ≠ 0 := by
  refine ⟨rfl, ?_, by decide⟩
  decide

/-- The rejection condition the code actually implements, written as a single
predicate over one iteration's inputs: with swap present the (wrapping u64)
swap delta alone decides, with no swap the floor test
`0 > available_memory as i64 - 50MB` alone decides, both subtractions with
release-mode wrapping (amended form of claim C3; the spec's claim is the
single condition `delta > 10MB ∨ available ≤ 50MB` regardless of swap
presence). -/
def rejectCond (prev : Nat) (m : Metrics) : Prop :=
  (0 < m.total_swap ∧ SWAP_DELTA_THRESHOLD < wrapSub64 m.used_swap prev)
  ∨ (m.total_swap = 0
      ∧ wrapSubI64 (toI64 m.available_memory) (FREE_MEM_THRESHOLD : Int) < 0)

/-- The no-swap floor test of the sizing loop (`0 > available_memory as i64 -
50MB as i64`, main.rs line 74), characterized over the whole u64 range: with
release-mode wrapping it succeeds exactly when the reading is strictly below
the 50 MB floor or at/above `2 ^ 63 + 50MB`; readings in
`[2 ^ 63, 2 ^ 63 + 50MB)` make the i64 subtraction overflow to a large
positive value, so the test fails there. -/
lemma wrapSubI64_floor_iff (x : Nat) (hx : x < 2 ^ 64) :
    wrapSubI64 (toI64 x) (FREE_MEM_THRESHOLD : Int) < 0
      ↔ (x < FREE_MEM_THRESHOLD ∨ 2 ^ 63 + FREE_MEM_THRESHOLD ≤ x) := by
  have hp63i : (2 : Int) ^ 63 = 9223372036854775808 := by norm_num
  have hp64i : (2 : Int) ^ 64 = 18446744073709551616 := by norm_num
  have hp63n : (2 : Nat) ^ 63 = 9223372036854775808 := by norm_num
  have hp64n : (2 : Nat) ^ 64 = 18446744073709551616 := by norm_num
  unfold wrapSubI64 toI64 FREE_MEM_THRESHOLD
  rw [Nat.mod_eq_of_lt hx]
  by_cases h : x < 2 ^ 63
  · rw [if_pos h]
    omega
  · rw [if_neg h]
    omega

/-- C3 (amended): in every sizing iteration the probe chunk is rejected
(dropped from `init_detectors`, its size taken out of the running total) iff
`rejectCond` holds: swap present and the wrapping u64 swap delta above 10 MB,
or no swap and the release-mode i64 floor test `0 > avail as i64 - 50MB`
succeeding.  Otherwise the probe is kept, and the iteration either breaks
(next increment under the floor) or accepts and stacks a further chunk.  The
last conjunct spells the wrapped floor test out over the whole u64 range: it
holds exactly for readings strictly below the 50 MB floor and for readings
at/above `2 ^ 63 + 50MB`, while readings in `[2 ^ 63, 2 ^ 63 + 50MB)` are
accepted because the i64 subtraction overflows. -/
theorem C3_reject_iff (prev : Nat) (m : Metrics) (s : SizState) :
    (rejectCond prev m →
      sizingStep prev m s
        = (⟨s.size - s.increment / 2,
            (s.total_size - s.size) + (s.size - s.increment / 2),
            s.increment / 2,
            (s.size - s.increment / 2) :: s.dets.tail,
            s.probes + 1⟩, false))
    ∧ (¬rejectCond prev m →
      sizingStep prev m s
        = if s.increment / 2 < FREE_MEM_THRESHOLD then
            (⟨s.size, s.total_size, s.increment / 2, s.dets, s.probes⟩, true)
          else
            (⟨s.size - s.increment / 2,
              s.total_size + (s.size - s.increment / 2),
              s.increment / 2,
              (s.size - s.increment / 2) :: s.dets,
              s.probes + 1⟩, false))
    ∧ (∀ avail : Nat, avail < 2 ^ 64 →
        (wrapSubI64 (toI64 avail) (FREE_MEM_THRESHOLD : Int) < 0
          ↔ (avail < FREE_MEM_THRESHOLD ∨ 2 ^ 63 + FREE_MEM_THRESHOLD ≤ avail))) := by
  refine ⟨?_, ?_, fun avail h => wrapSubI64_floor_iff avail h⟩
  · intro h
    unfold rejectCond at h
    unfold sizingStep
    rcases h with ⟨hswap, hdelta⟩ | ⟨hswap, hmem⟩
    · simp [hswap, hdelta]
    · simp [hswap, hmem]
  · intro h
    unfold rejectCond at h
    unfold sizingStep
    push_neg at h
    obtain ⟨h1, h2⟩ := h
    by_cases hswap : 0 < m.total_swap
    · have hdelta : ¬ SWAP_DELTA_THRESHOLD < wrapSub64 m.used_swap prev := by
        intro hc; exact absurd (h1 hswap) (by simp [hc])
      simp [hswap, hdelta]
    · have hz : m.total_swap = 0 := by omega
      have hmem : ¬ wrapSubI64 (toI64 m.available_memory) (FREE_MEM_THRESHOLD : Int) < 0 :=
        not_lt.mpr (h2 hz)
      simp [hswap, hmem]

/-- Witness for C3: a concrete rejecting iteration (swap present, swap
reading dropped below the baseline, so the wrapping delta is huge). -/
theorem C3_reject_iff_witness :
    sizingStep 20000000 ⟨1000000000, 0, 1⟩ (initSizState 1000000000)
      = (⟨250000000, 250000000, 250000000, [250000000], 2⟩, false) := by
  have h := (C3_reject_iff 20000000 ⟨1000000000, 0, 1⟩ (initSizState 1000000000)).1
    (Or.inl ⟨by decide, by decide⟩)
  rw [h]
  decide

/-- Counterexample for C3 as stated: with swap present (`total_swap = 1`), no
swap growth, and available memory 0 (at/under the 50 MB floor), the claim
demands the probe chunk be rejected; the code accepts it — the 200 MB probe
stays in `init_detectors` and `total_size` grows from 200 MB to 300 MB. -/
theorem C3_counterexample :
    (Metrics.mk 0 0 1).available_memory ≤ FREE_MEM_THRESHOLD
    ∧ wrapSub64 (Metrics.mk 0 0 1).used_swap 0 = 0
    ∧ sizingStep 0 (Metrics.mk 0 0 1) (initSizState 400000000)
        = (⟨100000000, 300000000, 100000000, [100000000, 200000000], 2⟩, false) := by
  refine ⟨by decide, by decide, by decide⟩

/-- C10: the sizing loop's swap-delta test computes
`used_swap - previous_swap_usage` with wrapping u64 subtraction.  Whenever
the re-sampled reading is at least the baseline, the subtraction does not
wrap and equals the true delta; at a reading below the baseline it wraps to
an astronomically large value (far above the 10 MB threshold), so the
decision is only meaningful under the precondition `prev ≤ used`. -/
theorem C10_swap_delta_no_underflow :
    (∀ used prev : Nat, prev ≤ used → used < 2 ^ 64 →
      wrapSub64 used prev = used - prev)
    ∧ wrapSub64 0 1 = 2 ^ 64 - 1
    ∧ SWAP_DELTA_THRESHOLD < wrapSub64 0 1 := by
  have hpow : (2 : Nat) ^ 64 = 18446744073709551616 := by norm_num
  refine ⟨?_, ?_, ?_⟩
  · intro used prev hle hlt
    unfold wrapSub64
    rw [hpow] at *
    omega
  · decide
  · decide
/-- Witness for C10 at concrete values. -/
theorem C10_swap_delta_no_underflow_witness :
    wrapSub64 25000000 10000000 = 25000000 - 10000000 :=
  C10_swap_delta_no_underflow.1 25000000 10000000 (by norm_num) (by norm_num)

/-! ## Configuration parsing (src/config.rs)

`Args.memory_to_occupy` is declared `NonZeroUsize` and produced by
`parse_size_string`; `usize` is 64-bit.  Rust's `usize::from_str` accepts an
optional leading `+` followed by ASCII digits and fails on overflow; the
`NonZeroUsize` instance additionally fails on zero.  The `f64` factor
arithmetic `(si_prefix_factor * bit_size) as usize` is exact for every entry
of the prefix table, so the factors appear as their exact integer values.
The `usize` multiplication `number * factor` wraps in a release build,
modelled by `% 2 ^ 64`; the text of a propagated `ParseIntError` is not
modelled (no claim depends on it). -/

def parseUsize (s : String) : Option Nat :=
  let cs := match s.data with
            | '+' :: rest => rest
            | cs => cs
  if cs ≠ [] ∧ cs.all Char.isDigit then
    let v := cs.foldl (fun a c => a * 10 + (c.toNat - 48)) 0
    if v < 2 ^ 64 then some v else none
  else none

/-- `str::parse::<NonZeroUsize>()`. -/
def parseNonZeroUsize (s : String) : Option Nat :=
  match parseUsize s with
  | some n => if n = 0 then none else some n
  | none => none

/-- `(si_prefix_factor * bit_size) as usize` for a recognized SI prefix
`ntl` and unit letter `last` (`'B'` bytes, `'b'` bits). -/
def siPrefixBitFactor (ntl last : Char) : Nat :=
  if last = 'B' then
    if ntl = 'k' then 1000
    else if ntl = 'M' then 1000000
    else if ntl = 'G' then 1000000000
    else if ntl = 'T' then 1000000000000
    else 1000000000000000
  else
    if ntl = 'k' then 125
    else if ntl = 'M' then 125000
    else if ntl = 'G' then 125000000
    else if ntl = 'T' then 125000000000
    else 125000000000000

def parseSizeString (s : String) : Except String Nat :=
  match parseNonZeroUsize s with
  | some t => Except.ok t
  | none =>
    let chars := s.data
    let len := chars.length
    match chars.getLast? with
    | none => Except.error "memory_to_occupy was empty"
    | some last =>
      if last = '0' then Except.error "Size must be more than 0 bytes of memory"
      else if (last ≠ 'B' ∧ last ≠ 'b') ∨ len < 2 then
        Except.error "Unable to parse memory_to_occupy"
      else
        let ntl := chars.getD (len - 2) ' '
        if ntl = 'k' ∨ ntl = 'M' ∨ ntl = 'G' ∨ ntl = 'T' ∨ ntl = 'P' then
          match parseUsize ((chars.take (len - 2)).asString) with
          | none => Except.error "could not parse memory size digits"
          | some number =>
            let p := number * siPrefixBitFactor ntl last % 2 ^ 64
            if p = 0 then Except.error "Zero is not a valid value" else Except.ok p
        else if ¬ ntl.isDigit then Except.error "Unsupported memory size"
        else Except.error "Could not parse memory size"

/-- Counterexample for C2 as stated: the configuration value 0 is *not*
accepted — `memory_to_occupy` is a `NonZeroUsize` and `parse_size_string`
rejects `"0"` explicitly. -/
theorem C2_counterexample :
    parseSizeString "0" = Except.error "Size must be more than 0 bytes of memory" := by
  rfl

/-- C2 (amended): configuration parsing never yields `memory_to_occupy = 0`
(the parser rejects every zero result); in `main`, for every nonzero size the
buffer is constructed at exactly that size with no sizing probe — regardless
of `verbose` — while a size of 0 triggers the adaptive sizer only when
`verbose` is also true (with `verbose = false` a 0-byte buffer is allocated
and no probe runs). -/
theorem C2_zero_sentinel :
    (∀ (s : String) (n : Nat), parseSizeString s = Except.ok n → 0 < n)
    ∧ (∀ (M : Nat → Metrics) (fuel mem : Nat) (v : Bool),
        mem ≠ 0 → startupResult M fuel mem v = some (mem, 0))
    ∧ (∀ (M : Nat → Metrics) (fuel : Nat),
        startupResult M fuel 0 false = some (0, 0))
    ∧ startupResult metricsNoSwap200 10 0 true = some (150000000, 2) := by
  refine ⟨?_, ?_, ?_, by decide⟩
  · intro s n h
    unfold parseSizeString at h
    split at h
    next t heq =>
      injection h with h
      subst h
      unfold parseNonZeroUsize at heq
      split at heq
      next m hu =>
        split at heq
        · simp at heq
        next hm => injection heq with heq; omega
      next => simp at heq
    next =>
      dsimp only at h
      split at h
      · simp at h
      next last hl =>
        split at h
        · simp at h
        · split at h
          · simp at h
          · split at h
            · split at h
              · simp at h
              next number hn =>
                split at h
                · simp at h
                next hzero =>
                  injection h with h
                  omega
            · split at h
              · simp at h
              · simp at h
  · intro M fuel mem v hmem
    unfold startupResult
    simp [hmem]
  · intro M fuel
    unfold startupResult
    simp

/-- Witness for C2 at concrete inputs. -/
theorem C2_zero_sentinel_witness :
    (0 : Nat) < 5 ∧ startupResult metricsNoSwap200 3 7 true = some (7, 0) :=
  ⟨C2_zero_sentinel.1 "5" 5 (by rfl),
   C2_zero_sentinel.2.1 metricsNoSwap200 3 7 true (by decide)⟩

/-! ## Termination and accounting of the sizing loop (claim C4)

`goodStep`/`goodRun` are proof-internal closed forms of `sizingStep`/
`sizingRun` under "benign" metrics (swap reading constant at the baseline,
available memory between the 50 MB floor and `2 ^ 63`): every iteration then
takes the accept path, so only the increment halving and the break test
remain. -/

def goodMetrics (M : Nat → Metrics) : Prop :=
  ∀ n, (M n).used_swap = (M 0).used_swap
    ∧ FREE_MEM_THRESHOLD ≤ (M n).available_memory
    ∧ (M n).available_memory < 2 ^ 63

def goodStep (s : SizState) : SizState × Bool :=
  if s.increment / 2 < FREE_MEM_THRESHOLD then
    (⟨s.size, s.total_size, s.increment / 2, s.dets, s.probes⟩, true)
  else
    (⟨s.size - s.increment / 2, s.total_size + (s.size - s.increment / 2),
      s.increment / 2, (s.size - s.increment / 2) :: s.dets, s.probes + 1⟩, false)

def goodRun : Nat → SizState → SizState × Bool
  | 0, s => (s, false)
  | fuel + 1, s =>
    let r := goodStep s
    if r.2 then r else goodRun fuel r.1

lemma wrapSub64_self (x : Nat) : wrapSub64 x x = 0 := by
  unfold wrapSub64
  have hpow : (2 : Nat) ^ 64 = 18446744073709551616 := by norm_num
  rw [hpow]
  omega

lemma sizingStep_good (M : Nat → Metrics) (hg : goodMetrics M) (n : Nat) (s : SizState) :
    sizingStep (M 0).used_swap (M n) s = goodStep s := by
  obtain ⟨hs, ha1, ha2⟩ := hg n
  have hfloor : ¬ (wrapSubI64 (toI64 (M n).available_memory) (FREE_MEM_THRESHOLD : Int) < 0) := by
    rw [wrapSubI64_floor_iff _ (lt_trans ha2 (by norm_num))]
    have hp63n : (2 : Nat) ^ 63 = 9223372036854775808 := by norm_num
    unfold FREE_MEM_THRESHOLD at ha1 ⊢
    omega
  have hdelta : ¬ (SWAP_DELTA_THRESHOLD < wrapSub64 (M n).used_swap (M 0).used_swap) := by
    rw [hs, wrapSub64_self]
    decide
  unfold sizingStep goodStep
  by_cases hswap : 0 < (M n).total_swap
  · simp only [if_pos hswap, if_neg hdelta]
  · simp only [if_neg hswap, if_neg hfloor]

lemma sizingRun_good (M : Nat → Metrics) (hg : goodMetrics M) :
    ∀ (f n : Nat) (s : SizState),
      sizingRun M (M 0).used_swap f n s = goodRun f s := by
  intro f
  induction f with
  | zero => intro n s; rfl
  | succ f ih =>
    intro n s
    show (let r := sizingStep (M 0).used_swap (M n) s;
          if r.2 then r else sizingRun M (M 0).used_swap f (n + 1) r.1)
        = (let r := goodStep s; if r.2 then r else goodRun f r.1)
    rw [sizingStep_good M hg n s]
    by_cases h2 : (goodStep s).2
    · simp only [h2, if_true]
    · simp only [h2, if_false]
      exact ih (n + 1) (goodStep s).1

lemma goodRun_done (f : Nat) :
    ∀ s : SizState, 1 ≤ f → s.increment / 2 ^ f < FREE_MEM_THRESHOLD →
      (goodRun f s).2 = true := by
  induction f with
  | zero => intro s h1 _; omega
  | succ f ih =>
    intro s h1 h2
    show ((let r := goodStep s; if r.2 then r else goodRun f r.1)).2 = true
    by_cases hb : s.increment / 2 < FREE_MEM_THRESHOLD
    · simp [goodStep, hb]
    · have hstep : goodStep s
          = (⟨s.size - s.increment / 2, s.total_size + (s.size - s.increment / 2),
              s.increment / 2, (s.size - s.increment / 2) :: s.dets, s.probes + 1⟩, false) := by
        unfold goodStep; rw [if_neg hb]
      rw [hstep]
      simp only [if_false]
      cases f with
      | zero =>
        exfalso
        rw [pow_one] at h2
        exact hb h2
      | succ f2 =>
        apply ih
        · omega
        · show s.increment / 2 / 2 ^ (f2 + 1) < FREE_MEM_THRESHOLD
          rw [Nat.div_div_eq_div_mul, ← pow_succ']
          exact h2

lemma goodRun_total_mono (f : Nat) :
    ∀ s : SizState, (goodRun f s).1.total_size ≤ (goodRun (f + 1) s).1.total_size := by
  induction f with
  | zero =>
    intro s
    show s.total_size ≤ ((let r := goodStep s; if r.2 then r else goodRun 0 r.1)).1.total_size
    by_cases hb : s.increment / 2 < FREE_MEM_THRESHOLD
    · simp [goodStep, hb]
    · simp [goodStep, hb, goodRun]
  | succ f ih =>
    intro s
    show ((let r := goodStep s; if r.2 then r else goodRun f r.1)).1.total_size
        ≤ ((let r := goodStep s; if r.2 then r else goodRun (f + 1) r.1)).1.total_size
    by_cases h2 : (goodStep s).2
    · simp only [h2, if_true]; exact le_refl _
    · simp only [h2, if_false]
      exact ih (goodStep s).1

/-- Triangular numbers, bounding the accumulated floor-rounding slack of the
sizing loop. -/
def triangle : Nat → Nat
  | 0 => 0
  | k + 1 => triangle k + (k + 1)

lemma triangle_le_sq : ∀ k, triangle k ≤ k * k := by
  intro k
  induction k with
  | zero => simp [triangle]
  | succ k ih =>
    show triangle k + (k + 1) ≤ (k + 1) * (k + 1)
    have h : (k + 1) * (k + 1) = k * k + 2 * k + 1 := by ring
    omega

/-- Invariant of the sizing loop after `k` accepted iterations: the increment
never exceeds the latest chunk size, the chunk size exceeds the increment by
at most the accumulated rounding slack `k`, and the running total plus the
increment stays within the initial available memory plus `triangle k`. -/
def SizInv (a k : Nat) (s : SizState) : Prop :=
  s.increment ≤ s.size ∧ s.size ≤ s.increment + k
    ∧ s.total_size + s.increment ≤ a + triangle k

lemma goodStep_preserves (a k : Nat) (s : SizState)
    (hInv : SizInv a k s) (hb : ¬ (s.increment / 2 < FREE_MEM_THRESHOLD)) :
    SizInv a (k + 1) (goodStep s).1
      ∧ (goodStep s).1.increment = s.increment / 2
      ∧ (goodStep s).2 = false := by
  obtain ⟨h1, h2, h3⟩ := hInv
  have hstep : goodStep s
      = (⟨s.size - s.increment / 2, s.total_size + (s.size - s.increment / 2),
          s.increment / 2, (s.size - s.increment / 2) :: s.dets, s.probes + 1⟩, false) := by
    unfold goodStep; rw [if_neg hb]
  rw [hstep]
  have hdiv := Nat.div_add_mod s.increment 2
  have hmod : s.increment % 2 ≤ 1 := by omega
  have htr : triangle (k + 1) = triangle k + (k + 1) := rfl
  refine ⟨⟨?_, ?_, ?_⟩, rfl, rfl⟩
  · show s.increment / 2 ≤ s.size - s.increment / 2
    omega
  · show s.size - s.increment / 2 ≤ s.increment / 2 + (k + 1)
    omega
  · show s.total_size + (s.size - s.increment / 2) + s.increment / 2 ≤ a + triangle (k + 1)
    omega

lemma goodRun_total_le (a : Nat) (ha : a < 2 ^ 63) :
    ∀ (f k : Nat) (s : SizState), SizInv a k s → s.increment = a / 2 / 2 ^ k →
      (k = 0 ∨ FREE_MEM_THRESHOLD ≤ s.increment) →
      (goodRun f s).2 = true → (goodRun f s).1.total_size ≤ a := by
  intro f
  induction f with
  | zero =>
    intro k s _ _ _ hdone
    exact absurd hdone (by simp [goodRun])
  | succ f ih =>
    intro k s hInv hinc hk hdone
    by_cases hb : s.increment / 2 < FREE_MEM_THRESHOLD
    · have hstep : goodStep s
          = (⟨s.size, s.total_size, s.increment / 2, s.dets, s.probes⟩, true) := by
        unfold goodStep; rw [if_pos hb]
      have hrun : goodRun (f + 1) s
          = (⟨s.size, s.total_size, s.increment / 2, s.dets, s.probes⟩, true) := by
        show (let r := goodStep s; if r.2 then r else goodRun f r.1) = _
        rw [hstep]
        rfl
      rw [hrun]
      show s.total_size ≤ a
      obtain ⟨h1, h2, h3⟩ := hInv
      rcases hk with hk0 | hkge
      · subst hk0
        have htr : triangle 0 = 0 := rfl
        omega
      · have hbound : triangle k ≤ s.increment := by
          have hmul : 2 ^ k * s.increment ≤ a / 2 := by
            rw [hinc, mul_comm]
            exact Nat.div_mul_le_self (a / 2) (2 ^ k)
          have hfree : 2 ^ k * FREE_MEM_THRESHOLD ≤ a / 2 :=
            le_trans (Nat.mul_le_mul_left (2 ^ k) hkge) hmul
          have hklt : k < 62 := by
            by_contra hge
            push_neg at hge
            have hple : (2 : Nat) ^ 62 ≤ 2 ^ k := Nat.pow_le_pow_right (by norm_num) hge
            have hmle : (2 : Nat) ^ 62 * 1 ≤ 2 ^ k * FREE_MEM_THRESHOLD :=
              Nat.mul_le_mul hple (by unfold FREE_MEM_THRESHOLD; norm_num)
            have hp62 : (2 : Nat) ^ 62 = 4611686018427387904 := by norm_num
            have hp63 : (2 : Nat) ^ 63 = 9223372036854775808 := by norm_num
            omega
          have hsq : k * k ≤ 62 * 62 := Nat.mul_le_mul (by omega) (by omega)
          have htsq := triangle_le_sq k
          unfold FREE_MEM_THRESHOLD at hkge
          omega
        omega
    · obtain ⟨hInv2, hinc2, hfalse⟩ := goodStep_preserves a k s hInv hb
      have hrun : goodRun (f + 1) s = goodRun f (goodStep s).1 := by
        show (let r := goodStep s; if r.2 then r else goodRun f r.1) = _
        simp only [hfalse]
        rfl
      rw [hrun] at hdone ⊢
      apply ih (k + 1) (goodStep s).1 hInv2 ?_ ?_ hdone
      · rw [hinc2, hinc, Nat.div_div_eq_div_mul, ← pow_succ]
      · right
        rw [hinc2]
        omega

/-- Ceiling base-2 logarithm via repeated ceiling halving (fuel-recursive so
that it evaluates by kernel reduction). -/
def ceilLog2Aux : Nat → Nat → Nat
  | 0, _ => 0
  | fuel + 1, n => if n ≤ 1 then 0 else ceilLog2Aux fuel ((n + 1) / 2) + 1

def ceilLog2 (n : Nat) : Nat := ceilLog2Aux n n

lemma le_two_pow_ceilLog2Aux : ∀ (fuel n : Nat), n ≤ fuel → n ≤ 2 ^ ceilLog2Aux fuel n := by
  intro fuel
  induction fuel with
  | zero =>
    intro n h
    have h0 : n = 0 := Nat.le_zero.mp h
    subst h0
    exact Nat.zero_le _
  | succ fuel ih =>
    intro n h
    show n ≤ 2 ^ (if n ≤ 1 then 0 else ceilLog2Aux fuel ((n + 1) / 2) + 1)
    by_cases h1 : n ≤ 1
    · rw [if_pos h1]; simpa using h1
    · rw [if_neg h1]
      have hrec : (n + 1) / 2 ≤ fuel := by omega
      have hle := ih ((n + 1) / 2) hrec
      have hpow : 2 ^ (ceilLog2Aux fuel ((n + 1) / 2) + 1)
          = 2 * 2 ^ ceilLog2Aux fuel ((n + 1) / 2) := by
        rw [pow_succ']
      omega

/-- `⌈log2(a / 50MB)⌉ + 1`, the claimed iteration bound of the adaptive
sizer (with the real-valued quotient's ceiling taken as `⌈a / 50MB⌉` before
the ceiling log). -/
def iterationBound (a : Nat) : Nat :=
  ceilLog2 ((a + FREE_MEM_THRESHOLD - 1) / FREE_MEM_THRESHOLD) + 1

/-- C4 (amended): for every metrics provider whose available-memory readings
stay in `[50MB, 2^63)` and whose swap-usage reading stays equal to the
pre-loop baseline, the sizing loop (started as `main` starts it, on sample 1
with baseline taken from sample 0) hits `break` within
`⌈log2(a / 50MB)⌉ + 1` iterations, its running total is monotonically
non-decreasing in the number of iterations run, and whenever it has hit
`break` the final total is at most the initial available-memory reading
`a`. -/
theorem C4_sizing_convergence (M : Nat → Metrics) (hg : goodMetrics M) :
    ((sizingRun M (M 0).used_swap (iterationBound (M 0).available_memory) 1
        (initSizState (M 0).available_memory)).2 = true)
    ∧ (∀ f, (sizingRun M (M 0).used_swap f 1 (initSizState (M 0).available_memory)).1.total_size
          ≤ (sizingRun M (M 0).used_swap (f + 1) 1 (initSizState (M 0).available_memory)).1.total_size)
    ∧ (∀ f, (sizingRun M (M 0).used_swap f 1 (initSizState (M 0).available_memory)).2 = true →
        (sizingRun M (M 0).used_swap f 1 (initSizState (M 0).available_memory)).1.total_size
          ≤ (M 0).available_memory) := by
  obtain ⟨-, ha1, ha2⟩ := hg 0
  refine ⟨?_, ?_, ?_⟩
  · rw [sizingRun_good M hg]
    apply goodRun_done
    · show 1 ≤ ceilLog2 _ + 1
      omega
    · show (M 0).available_memory / 2 / 2 ^ iterationBound (M 0).available_memory
          < FREE_MEM_THRESHOLD
      rw [Nat.div_div_eq_div_mul, ← pow_succ']
      rw [Nat.div_lt_iff_lt_mul (Nat.pos_pow_of_pos _ (by norm_num))]
      unfold iterationBound ceilLog2
      unfold FREE_MEM_THRESHOLD at ha1 ⊢
      have hq2 : (M 0).available_memory
          ≤ 50000000 * (((M 0).available_memory + 50000000 - 1) / 50000000) := by
        omega
      have hq3 := le_two_pow_ceilLog2Aux
        (((M 0).available_memory + 50000000 - 1) / 50000000)
        (((M 0).available_memory + 50000000 - 1) / 50000000) (le_refl _)
      have hone : 1 ≤ 2 ^ ceilLog2Aux
          (((M 0).available_memory + 50000000 - 1) / 50000000)
          (((M 0).available_memory + 50000000 - 1) / 50000000) :=
        Nat.one_le_two_pow
      have hpow : (2 : Nat) ^ (ceilLog2Aux
            (((M 0).available_memory + 50000000 - 1) / 50000000)
            (((M 0).available_memory + 50000000 - 1) / 50000000) + 1 + 1)
          = 4 * 2 ^ ceilLog2Aux
            (((M 0).available_memory + 50000000 - 1) / 50000000)
            (((M 0).available_memory + 50000000 - 1) / 50000000) := by
        ring
      rw [hpow]
      omega
  · intro f
    rw [sizingRun_good M hg, sizingRun_good M hg]
    exact goodRun_total_mono f _
  · intro f hdone
    rw [sizingRun_good M hg] at hdone ⊢
    apply goodRun_total_le (M 0).available_memory ha2 f 0
    · refine ⟨le_refl _, ?_, ?_⟩
      · show (M 0).available_memory / 2 ≤ (M 0).available_memory / 2 + 0
        omega
      · show (M 0).available_memory / 2 + (M 0).available_memory / 2
            ≤ (M 0).available_memory + triangle 0
        have htr : triangle 0 = 0 := rfl
        omega
    · show (M 0).available_memory / 2 = (M 0).available_memory / 2 / 2 ^ 0
      rw [pow_zero, Nat.div_one]
    · exact Or.inl rfl
    · exact hdone

/-- A steady metrics provider: swap constant, 200 MB available throughout. -/
def metricsSteady : Nat → Metrics := fun _ => ⟨200000000, 7, 1⟩

/-- Witness for C4 at a concrete steady metrics provider. -/
theorem C4_sizing_convergence_witness :
    (sizingRun metricsSteady 7 (iterationBound 200000000) 1
      (initSizState 200000000)).2 = true :=
  (C4_sizing_convergence metricsSteady
    (fun _ => ⟨rfl, (by decide : (50000000 : Nat) ≤ 200000000),
      (by norm_num : (200000000 : Nat) < 2 ^ 63)⟩)).1

/-- A metrics provider satisfying the claim's hypotheses verbatim (available
memory constantly 1 GB — never below the floor — and swap usage never
increasing: 20 MB at the baseline sample, 0 afterwards). -/
def metricsSwapDrop : Nat → Metrics :=
  fun n => if n = 0 then ⟨1000000000, 20000000, 1⟩ else ⟨1000000000, 0, 1⟩

/-- Counterexample for C4 as stated: under `metricsSwapDrop` (which satisfies
the claim's hypotheses — available memory never below the 50 MB floor, swap
usage never increasing) the wrapping u64 swap delta is huge in every
iteration, so every probe is rejected: the loop has not hit `break` after the
claimed `⌈log2(a / 50MB)⌉ + 1 = 6` iterations, and the running total
*decreases* from 500 MB to 250 MB after the first iteration instead of being
monotonically non-decreasing. -/
theorem C4_counterexample :
    iterationBound 1000000000 = 6
    ∧ (sizingRun metricsSwapDrop 20000000 6 1 (initSizState 1000000000)).2 = false
    ∧ (sizingRun metricsSwapDrop 20000000 1 1 (initSizState 1000000000)).1.total_size
        < (sizingRun metricsSwapDrop 20000000 0 1 (initSizState 1000000000)).1.total_size := by
  refine ⟨by decide, by decide, by decide⟩

/-! ## Log record serialization (src/main.rs lines 143-146 and 198-219)

The two `format!` templates of `main`, embedded as string concatenation;
`{}` on the unsigned timestamp/counter values prints decimal digits, which is
exactly `Nat.repr`.  In the source the fourth field of a detection record is
the literal `0` in the index-found arm and `1` in the reverted (`ambiguous`)
arm of the `match` on `find_index_of_changed_element()`. -/

def startEntryStr (session_start_ms delay_ms : Nat) (latitude longitude : String) : String :=
  Nat.repr session_start_ms ++ "," ++ Nat.repr delay_ms ++ ",,,"
    ++ latitude ++ "," ++ longitude ++ "\n"

def detectionEntryStr (session_start_ms delay_ms checks flag event_time_ms : Nat)
    (latitude longitude : String) : String :=
  Nat.repr session_start_ms ++ "," ++ Nat.repr delay_ms ++ "," ++ Nat.repr checks
    ++ "," ++ Nat.repr flag ++ "," ++ Nat.repr event_time_ms
    ++ "," ++ latitude ++ "," ++ longitude ++ "\n"

/-- The detection record as written by the two `match` arms: ambiguous
(index not re-found) encodes as `1`, index-found as `0`. -/
def detectionLogLine (session_start_ms delay_ms checks : Nat) (ambiguous : Bool)
    (event_time_ms : Nat) (latitude longitude : String) : String :=
  if ambiguous then
    detectionEntryStr session_start_ms delay_ms checks 1 event_time_ms latitude longitude
  else
    detectionEntryStr session_start_ms delay_ms checks 0 event_time_ms latitude longitude

def commaCount (s : String) : Nat := s.data.count ','

def newlineCount (s : String) : Nat := s.data.count '\n'

lemma digitChar_isDigit (d : Nat) (hd : d < 10) : (Nat.digitChar d).isDigit = true := by
  interval_cases d <;> decide

lemma toDigitsCore_digits (fuel : Nat) :
    ∀ (n : Nat) (acc : List Char), (∀ c ∈ acc, c.isDigit = true) →
      ∀ c ∈ Nat.toDigitsCore 10 fuel n acc, c.isDigit = true := by
  induction fuel with
  | zero =>
    intro n acc hacc c hc
    exact hacc c hc
  | succ fuel ih =>
    intro n acc hacc c hc
    have hacc2 : ∀ x ∈ Nat.digitChar (n % 10) :: acc, x.isDigit = true := by
      intro x hx
      rcases List.mem_cons.mp hx with hx1 | hx2
      · subst hx1; exact digitChar_isDigit _ (Nat.mod_lt _ (by norm_num))
      · exact hacc x hx2
    by_cases h0 : n / 10 = 0
    · rw [show Nat.toDigitsCore 10 (fuel + 1) n acc = Nat.digitChar (n % 10) :: acc from by
        simp [Nat.toDigitsCore, h0]] at hc
      exact hacc2 c hc
    · rw [show Nat.toDigitsCore 10 (fuel + 1) n acc
          = Nat.toDigitsCore 10 fuel (n / 10) (Nat.digitChar (n % 10) :: acc) from by
        simp [Nat.toDigitsCore, h0]] at hc
      exact ih (n / 10) _ hacc2 c hc

lemma repr_data_digits (n : Nat) : ∀ c ∈ (Nat.repr n).data, c.isDigit = true := by
  intro c hc
  have hd : (Nat.repr n).data = Nat.toDigitsCore 10 (n + 1) n [] := rfl
  rw [hd] at hc
  exact toDigitsCore_digits (n + 1) n [] (by intro x hx; simp at hx) c hc

lemma repr_count_comma (n : Nat) : (Nat.repr n).data.count ',' = 0 := by
  rw [List.count_eq_zero]
  intro hmem
  exact absurd (repr_data_digits n ',' hmem) (by decide)

lemma repr_count_newline (n : Nat) : (Nat.repr n).data.count '\n' = 0 := by
  rw [List.count_eq_zero]
  intro hmem
  exact absurd (repr_data_digits n '\n' hmem) (by decide)

/-- C9: the session-start and detection records of the spec's scenarios
serialize to exactly the claimed comma-separated lines; `ambiguous` encodes
as `0`/`1`; and in general (for geolocation strings free of commas and
newlines) a session-start record has exactly 5 commas and a detection record
exactly 6, each forming exactly one line. -/
theorem C9_record_serialization :
    startEntryStr 1700000000000 30000 "59.33" "18.06"
      = "1700000000000,30000,,,59.33,18.06\n"
    ∧ detectionLogLine 1700000000000 30000 42 false 1700000300000 "59.33" "18.06"
      = "1700000000000,30000,42,0,1700000300000,59.33,18.06\n"
    ∧ detectionLogLine 1700000000000 30000 42 true 1700000300000 "59.33" "18.06"
      = "1700000000000,30000,42,1,1700000300000,59.33,18.06\n"
    ∧ (∀ (ts d : Nat) (lat lon : String), ',' ∉ lat.data → ',' ∉ lon.data →
        '\n' ∉ lat.data → '\n' ∉ lon.data →
        commaCount (startEntryStr ts d lat lon) = 5
        ∧ newlineCount (startEntryStr ts d lat lon) = 1)
    ∧ (∀ (ts d c e : Nat) (amb : Bool) (lat lon : String), ',' ∉ lat.data → ',' ∉ lon.data →
        '\n' ∉ lat.data → '\n' ∉ lon.data →
        commaCount (detectionLogLine ts d c amb e lat lon) = 6
        ∧ newlineCount (detectionLogLine ts d c amb e lat lon) = 1) := by
  refine ⟨rfl, rfl, rfl, ?_, ?_⟩
  · intro ts d lat lon hlat hlon hlat2 hlon2
    unfold commaCount newlineCount startEntryStr
    simp only [String.data_append, List.count_append]
    rw [List.count_eq_zero.mpr hlat, List.count_eq_zero.mpr hlon,
      List.count_eq_zero.mpr hlat2, List.count_eq_zero.mpr hlon2,
      repr_count_comma, repr_count_comma, repr_count_newline, repr_count_newline]
    exact ⟨by decide, by decide⟩
  · intro ts d c e amb lat lon hlat hlon hlat2 hlon2
    unfold detectionLogLine
    cases amb <;>
      (unfold commaCount newlineCount detectionEntryStr
       simp only [Bool.false_eq_true, if_false, if_true]
       simp only [String.data_append, List.count_append]
       rw [List.count_eq_zero.mpr hlat, List.count_eq_zero.mpr hlon,
         List.count_eq_zero.mpr hlat2, List.count_eq_zero.mpr hlon2,
         repr_count_comma, repr_count_comma, repr_count_comma, repr_count_comma,
         repr_count_comma, repr_count_newline, repr_count_newline, repr_count_newline,
         repr_count_newline, repr_count_newline]
       exact ⟨by decide, by decide⟩)

/-- Witness for C9 at concrete geolocation strings. -/
theorem C9_record_serialization_witness :
    commaCount (startEntryStr 1 2 "a" "b") = 5 :=
  (C9_record_serialization.2.2.2.1 1 2 "a" "b"
    (by decide) (by decide) (by decide) (by decide)).1

/-! ## Detection loop counters (src/main.rs lines 152-222)

Bit flips are environment events, so the loop is abstracted over the stream
of `is_intact()` outcomes.  In each cycle the inner `while` keeps checking
while the outcome is `true`; every check increments
`checks_since_last_bitflip` regardless of outcome (main.rs line 184); on a
`false` outcome the current counter value goes into the detection record and
the counter is set to 0 *after* logging (main.rs line 221).  The counter is
initialized to `1` before the first cycle (main.rs line 153). -/

/-- The sequence of `checks_since_last_bitflip` values written to detection
records, given the stream of `is_intact()` outcomes and the counter value at
entry. -/
def loggedChecks : List Bool → Nat → List Nat
  | [], _ => []
  | b :: rest, c =>
    if b then loggedChecks rest (c + 1) else (c + 1) :: loggedChecks rest 0

lemma loggedChecks_replicate (n : Nat) :
    ∀ c : Nat, loggedChecks (List.replicate n true ++ [false]) c = [c + n + 1] := by
  induction n with
  | zero => intro c; simp [loggedChecks]
  | succ n ih =>
    intro c
    show loggedChecks (true :: (List.replicate n true ++ [false])) c = _
    simp only [loggedChecks, if_true]
    rw [ih (c + 1)]
    simp only [List.cons.injEq, and_true]
    omega

/-- C5: the claim says the checks-since-last-flip counter is zero at the
start of *every* cycle, the very first included, so a record reports exactly
the cycle's number of CHECKING steps.  The code initializes the counter to 1
(main.rs line 153) and only zeroes it after each record: the first cycle
with exactly one CHECKING step logs `2` (and a second cycle then logs its
true count `1`), while a zero-initialized counter — the spec's ARMED
semantics, in force from the second cycle on — logs exactly the cycle
length. -/
theorem C5_first_cycle_counter :
    loggedChecks [false] 1 = [2]
    ∧ loggedChecks [false, false] 1 = [2, 1]
    ∧ (∀ n, loggedChecks (List.replicate n true ++ [false]) 0 = [n + 1]) := by
  refine ⟨rfl, rfl, ?_⟩
  intro n
  rw [loggedChecks_replicate]
  simp
